import Mathlib

/-!
Verification development for the shape-shift-analyzer repository.

The first part embeds `src/src/event-system.ts`: the application state,
the event and effect vocabularies, the pure reducer, and the effect
derivation.  The TypeScript reducer signals "no change" by returning the
very same object it received, and the effect deriver's first rule tests
reference (identity) inequality of old and new state; the embedding makes
this observable by having `reduce` return an `Option AppState`, where
`none` means "the same object was returned" and `some s` means "a freshly
allocated object with contents `s` was returned".
-/

namespace ShapeShift

/-- `AppState` from `event-system.ts`.  JavaScript numbers used as scene
counters are modelled as `Int`. -/
structure AppState where
  currentSceneIndex : Int
  isAutoMode : Bool
  isPlaying : Bool
  totalScenes : Int
  projectLoaded : Bool
deriving DecidableEq, Repr

/-- `AppEvent` from `event-system.ts`. -/
inductive AppEvent where
  | projectLoaded (totalScenes : Int)
  | sceneNavigate (direction : Int)
  | sceneSet (index : Int)
  | modeToggle
  | playPause
  | audioStarted
  | audioStopped
  | autoAdvance
deriving DecidableEq, Repr

/-- `AppEffect` from `event-system.ts`.  The two audio effects carry an
`Fx` suffix in the embedding. -/
inductive AppEffect where
  | loadSceneAudioFx (sceneIndex : Int)
  | updateUI
  | stopAudioFx
  | advanceScene
deriving DecidableEq, Repr

/-- `EventSystem.reduce`, with object identity made explicit: `none`
means the reducer branch returned its input object unchanged (`return
state` in the source), `some s` means it allocated a new object (an
object-spread literal in the source) with contents `s`. -/
def reduce (state : AppState) (event : AppEvent) : Option AppState :=
  match event with
  | .projectLoaded totalScenes =>
      some { state with
              projectLoaded := true
              totalScenes := totalScenes
              currentSceneIndex := 1 }
  | .sceneNavigate direction =>
      let newIndex := state.currentSceneIndex + direction
      if newIndex ≥ 1 ∧ newIndex ≤ state.totalScenes then
        some { state with currentSceneIndex := newIndex }
      else
        none
  | .sceneSet index =>
      if index ≥ 1 ∧ index ≤ state.totalScenes then
        some { state with currentSceneIndex := index }
      else
        none
  | .modeToggle => some { state with isAutoMode := !state.isAutoMode }
  | .playPause => some { state with isPlaying := !state.isPlaying }
  | .audioStarted => some { state with isPlaying := true }
  | .audioStopped => some { state with isPlaying := false }
  | .autoAdvance =>
      if !state.isAutoMode then none
      else
        let nextIndex := state.currentSceneIndex + 1
        let newIndex := if nextIndex ≤ state.totalScenes then nextIndex else 1
        some { state with currentSceneIndex := newIndex }

/-- The value of the reduced state (collapsing the identity information:
`reduce` returning the same object means the state value is unchanged). -/
def reduceVal (state : AppState) (event : AppEvent) : AppState :=
  (reduce state event).getD state

/-- `EventSystem.getEffects`.  `refChanged` is the value of the source's
`oldState !== newState` reference comparison. -/
def getEffects (oldState newState : AppState) (refChanged : Bool)
    (event : AppEvent) : List AppEffect :=
  (if refChanged then [AppEffect.updateUI] else [])
  ++ (match event with
      | .projectLoaded _ => [AppEffect.loadSceneAudioFx newState.currentSceneIndex]
      | _ => [])
  ++ (if oldState.currentSceneIndex ≠ newState.currentSceneIndex then
        [AppEffect.stopAudioFx, AppEffect.loadSceneAudioFx newState.currentSceneIndex]
      else [])
  ++ (if oldState.isAutoMode ≠ newState.isAutoMode then
        [AppEffect.stopAudioFx]
        ++ (if newState.isPlaying || newState.isAutoMode then
              [AppEffect.loadSceneAudioFx newState.currentSceneIndex]
            else [])
      else [])
  ++ (match event with
      | .playPause =>
          if oldState.isPlaying then [AppEffect.stopAudioFx]
          else [AppEffect.loadSceneAudioFx newState.currentSceneIndex]
      | _ => [])
  ++ (match event with
      | .autoAdvance => [AppEffect.advanceScene]
      | _ => [])

/-- `EventSystem.dispatch`, restricted to its pure core: the new stored
state together with the derived effect list. -/
def dispatch (state : AppState) (event : AppEvent) : AppState × List AppEffect :=
  let r := reduce state event
  let newState := r.getD state
  (newState, getEffects state newState r.isSome event)

/-- The initial state of the singleton `eventSystem` instance. -/
def initialState : AppState :=
  { currentSceneIndex := 1
    isAutoMode := false
    isPlaying := false
    totalScenes := 0
    projectLoaded := false }

/-- Run a sequence of events through the reducer. -/
def runEvents (state : AppState) (events : List AppEvent) : AppState :=
  events.foldl reduceVal state

/-!
Second part: the `AudioPlayer` class from the repository's audio-player
module.  Times and PCM samples are JavaScript numbers, modelled as `Rat`.
A Web Audio `AudioBuffer` is a sample rate, a frame count (`length`), and
per-channel sample arrays; `duration` is `length / sampleRate`, and
`getChannelData(c).length` is the length of channel `c`'s own array, as
read by the copy loop in `playSegmentWithMode`.

Sound-producing handles (`AudioBufferSourceNode`s) are modelled
explicitly so that "at most one sounding source" is statable: the engine
records every source it ever created, in creation order, and
`currentSource` is an index into that list.  Per the Web Audio API, a
started `AudioBufferSourceNode` fires its `ended` event when it stops
playing for any reason — natural completion of a non-looping buffer or a
call to `stop()` — and the event is delivered asynchronously; the model
therefore marks an `ended` delivery as pending when a playing source is
stopped, and a separate `deliverEnded` step runs the attached listener.
-/

/-- A decoded audio buffer (`AudioBuffer`). -/
structure AudioBuffer where
  sampleRate : Rat
  length : Nat
  channels : List (List Rat)
deriving DecidableEq, Repr

/-- `AudioBuffer.duration = length / sampleRate`. -/
def AudioBuffer.duration (b : AudioBuffer) : Rat :=
  (b.length : Rat) / b.sampleRate

/-- `AudioBuffer.numberOfChannels`. -/
def AudioBuffer.numberOfChannels (b : AudioBuffer) : Nat :=
  b.channels.length

/-- The `loopMode` field of `AudioPlayer`. -/
inductive LoopMode where
  | loop
  | once
deriving DecidableEq, Repr

/-- One `AudioBufferSourceNode` created by the player, together with its
playback status.  `stopped` covers both a `stop()` call and natural
completion; `endedPending` records that the asynchronous `ended` event
has been scheduled but not yet delivered. -/
structure Source where
  buffer : AudioBuffer
  loop : Bool
  started : Bool
  stopped : Bool
  connected : Bool
  hasEndedListener : Bool
  endedPending : Bool
  endedDelivered : Bool
deriving DecidableEq, Repr

/-- A source handle is sounding while it has been started and not yet
stopped (manually or by reaching the end of a non-looping buffer). -/
def Source.sounding (s : Source) : Bool :=
  s.started && !s.stopped

instance : Inhabited Source :=
  ⟨{ buffer := { sampleRate := 0, length := 0, channels := [] }
     loop := false, started := false, stopped := false, connected := false
     hasEndedListener := false, endedPending := false, endedDelivered := false }⟩

/-- The observable state of an `AudioPlayer` instance.  `sources` lists
every source node ever created; `currentSource` is the index of the one
held in the `currentSource` field, if any.  `callbackCount` counts
invocations of the registered `onSegmentEnd` completion callback. -/
structure AudioPlayer where
  sources : List Source
  currentSource : Option Nat
  hasGain : Bool
  currentBuffer : Option AudioBuffer
  isPlaying : Bool
  stopRequested : Bool
  loopMode : LoopMode
  hasOnSegmentEnd : Bool
  callbackCount : Nat
deriving DecidableEq, Repr

/-- A freshly constructed `AudioPlayer`. -/
def initPlayer : AudioPlayer :=
  { sources := []
    currentSource := none
    hasGain := false
    currentBuffer := none
    isPlaying := false
    stopRequested := false
    loopMode := .loop
    hasOnSegmentEnd := false
    callbackCount := 0 }

/-- Effect of `stop()` on the current source node: `stop()` then
`disconnect()`.  Stopping a node that was actually playing schedules its
`ended` event. -/
def stopSource (s : Source) : Source :=
  { s with
    stopped := true
    connected := false
    endedPending := s.endedPending || (s.started && !s.stopped && !s.endedDelivered) }

/-- `AudioPlayer.stop`: set `isPlaying=false` and `stopRequested=true`
immediately, then stop and disconnect the current source and gain node,
clearing both references.  (The suspend/resume "hard reset" of the audio
context and the `try/catch` have no further observable effect here:
the operation is total.) -/
def AudioPlayer.stop (p : AudioPlayer) : AudioPlayer :=
  { p with
    isPlaying := false
    stopRequested := true
    sources :=
      match p.currentSource with
      | some i => p.sources.set i (stopSource (p.sources.getD i default))
      | none => p.sources
    currentSource := none
    hasGain := false }

/-- `AudioPlayer.setLoopMode(mode, onSegmentEnd?)`. -/
def AudioPlayer.setLoopMode (p : AudioPlayer) (mode : LoopMode)
    (hasCallback : Bool) : AudioPlayer :=
  { p with loopMode := mode, hasOnSegmentEnd := hasCallback }

/-- `AudioPlayer.playSimpleLoop`: create a source over the whole buffer
with `loop = true`, connect it through a fresh gain node, and start it at
offset 0. -/
def AudioPlayer.playSimpleLoop (p : AudioPlayer) (buffer : AudioBuffer) :
    AudioPlayer :=
  let src : Source :=
    { buffer := buffer
      loop := true
      started := true
      stopped := false
      connected := true
      hasEndedListener := false
      endedPending := false
      endedDelivered := false }
  { p with
    sources := p.sources ++ [src]
    currentSource := some p.sources.length
    hasGain := true
    currentBuffer := some buffer
    isPlaying := true
    stopRequested := false }

/-- `Math.floor` of a non-negative JavaScript number used as an array
size / index: floor to `Int`, then to `Nat`. -/
def jsFloorNat (q : Rat) : Nat := q.floor.toNat

/-- One channel of the materialized segment buffer: `createBuffer`
zero-fills the channel, and the copy loop overwrites index `i` with
`originalData[startSample + i]` whenever that source index is in range. -/
def segmentChannelData (orig : List Rat) (startSample segmentLength : Nat) :
    List Rat :=
  (List.range segmentLength).map fun i =>
    let sourceIndex := startSample + i
    if sourceIndex < orig.length then orig.getD sourceIndex 0 else 0

/-- The segment buffer materialized by `playSegmentWithMode`:
`segmentLength = floor((end - start) * sampleRate)` frames,
`startSample = floor(start * sampleRate)`, per-channel copy. -/
def makeSegmentBuffer (buffer : AudioBuffer) (startTime endTime : Rat) :
    AudioBuffer :=
  let segmentDuration := endTime - startTime
  let segmentLength := jsFloorNat (segmentDuration * buffer.sampleRate)
  let startSample := jsFloorNat (startTime * buffer.sampleRate)
  { sampleRate := buffer.sampleRate
    length := segmentLength
    channels := buffer.channels.map fun orig =>
      segmentChannelData orig startSample segmentLength }

/-- `AudioPlayer.playSegmentWithMode`: materialize the segment buffer,
create a source over it with `loop = (loopMode == 'loop')`, attach the
`ended` listener when `loopMode == 'once'` and a callback is registered,
connect through a fresh gain node and start.  Note `currentBuffer` is set
to the *original* buffer. -/
def AudioPlayer.playSegmentWithMode (p : AudioPlayer) (buffer : AudioBuffer)
    (startTime endTime : Rat) : AudioPlayer :=
  let src : Source :=
    { buffer := makeSegmentBuffer buffer startTime endTime
      loop := p.loopMode = .loop
      started := true
      stopped := false
      connected := true
      hasEndedListener := p.loopMode = .once && p.hasOnSegmentEnd
      endedPending := false
      endedDelivered := false }
  { p with
    sources := p.sources ++ [src]
    currentSource := some p.sources.length
    hasGain := true
    currentBuffer := some buffer
    isPlaying := true
    stopRequested := false }

/-- `startTime || 0`: JavaScript `||` maps the falsy number 0 (and an
absent argument) to the default. -/
def resolveStartTime (startTime : Option Rat) : Rat :=
  match startTime with
  | none => 0
  | some t => if t = 0 then 0 else t

/-- `endTime || buffer.duration`: an explicit 0 is falsy and resolves to
the default, exactly like an absent argument. -/
def resolveEndTime (buffer : AudioBuffer) (endTime : Option Rat) : Rat :=
  match endTime with
  | none => buffer.duration
  | some t => if t = 0 then buffer.duration else t

/-- The validation predicate of `playSegment` (`tolerance = 0.1`). -/
def invalidWindow (buffer : AudioBuffer) (start finish : Rat) : Prop :=
  start ≥ finish ∨ start < 0 ∨ finish > buffer.duration + 1/10 ∨
    start ≥ buffer.duration

instance (buffer : AudioBuffer) (start finish : Rat) :
    Decidable (invalidWindow buffer start finish) := by
  unfold invalidWindow; infer_instance

/-- `AudioPlayer.playSegment`: bail out on a null buffer; otherwise stop
the current playback, reset `stopRequested`, resolve the optional bounds,
and either fall back to `playSimpleLoop` on an invalid window or play the
sliced segment with the end clamped to the buffer duration.  (The settle
delay and the audio-context resume are suspension points with no
observable effect on this state.) -/
def AudioPlayer.playSegment (p : AudioPlayer) (buffer : Option AudioBuffer)
    (startTime endTime : Option Rat) : AudioPlayer :=
  match buffer with
  | none => p
  | some buf =>
    let p1 := p.stop
    let p2 := { p1 with stopRequested := false }
    let actualStartTime := resolveStartTime startTime
    let actualEndTime := resolveEndTime buf endTime
    if invalidWindow buf actualStartTime actualEndTime then
      p2.playSimpleLoop buf
    else
      -- clampedEndTime = Math.min(actualEndTime, buffer.duration)
      p2.playSegmentWithMode buf actualStartTime
        (if actualEndTime ≤ buf.duration then actualEndTime else buf.duration)

/-- Natural completion of a non-looping sounding source: the node stops
playing and its `ended` event is scheduled. -/
def AudioPlayer.naturalEnd (p : AudioPlayer) (i : Nat) : AudioPlayer :=
  let s := p.sources.getD i default
  if i < p.sources.length ∧ s.sounding = true ∧ s.loop = false then
    { p with sources := p.sources.set i { s with stopped := true, endedPending := true } }
  else p

/-- Asynchronous delivery of a scheduled `ended` event.  If the source
carries the listener attached by `playSegmentWithMode`, the listener body
runs: it sets `isPlaying = false` and then invokes `onSegmentEnd`. -/
def AudioPlayer.deliverEnded (p : AudioPlayer) (i : Nat) : AudioPlayer :=
  let s := p.sources.getD i default
  if i < p.sources.length ∧ s.endedPending = true then
    let p' := { p with
      sources := p.sources.set i { s with endedPending := false, endedDelivered := true } }
    if s.hasEndedListener then
      { p' with isPlaying := false, callbackCount := p.callbackCount + 1 }
    else p'
  else p

/-- The operations a client (or the platform's event loop) can perform on
an `AudioPlayer`. -/
inductive PlayerOp where
  | play (buffer : Option AudioBuffer) (startTime endTime : Option Rat)
  | stopOp
  | setMode (mode : LoopMode) (hasCallback : Bool)
  | natEnd (i : Nat)
  | ended (i : Nat)

/-- Apply one operation. -/
def applyOp (p : AudioPlayer) : PlayerOp → AudioPlayer
  | .play buffer startTime endTime => p.playSegment buffer startTime endTime
  | .stopOp => p.stop
  | .setMode mode hasCallback => p.setLoopMode mode hasCallback
  | .natEnd i => p.naturalEnd i
  | .ended i => p.deliverEnded i

/-- Run a sequence of player operations from a given player state. -/
def runOps (p : AudioPlayer) (ops : List PlayerOp) : AudioPlayer :=
  ops.foldl applyOp p

/-!
Third part: the orchestration glue from the repository's main module
(reproduced in `src/README.md`): the `LOAD_SCENE_AUDIO` effect handler
and `loadSceneAudio`, which implement the freshness-token protocol.  The
source draws tokens from `Math.random`; the only property of the tokens
it uses is freshness (each handler invocation stores a token distinct
from all earlier ones in `currentAudioRequestId`), so tokens are modelled
as consecutive naturals drawn from a counter.

`loadSceneAudio` suspends at `await loadAudioFromZip` and at `await
playSegment`; everything between two suspension points runs atomically on
the single-threaded event loop.  A request is therefore modelled as a
queue of stage tasks: `preDelay` is the `setTimeout` continuation of the
effect handler (its `currentAudioRequestId === requestId` check, then
`loadSceneAudio`'s entry check and its check before starting the load,
all in one atomic slice), and `afterLoad` is the continuation after the
decode completes (the check after loading, then the `playSegment` call).
The model covers the successful path: the scene has a reference clip
with an audio file and the decode succeeds. -/

/-- A scheduled continuation of an in-flight audio-load request. -/
inductive GlueTask where
  | preDelay (requestId : Nat) (sceneIndex : Int)
  | afterLoad (requestId : Nat) (sceneIndex : Int)
deriving DecidableEq, Repr

/-- Observable state of the orchestration glue.  `playSegmentCalls` is
the sequence of scene indices whose audio reached
`audioPlayer.playSegment`; `stopCalls` counts calls to
`audioPlayer.stop` made by these handlers; `cancelledRequests` lists
the request ids that aborted at a staleness checkpoint. -/
structure GlueState where
  currentAudioRequestId : Option Nat
  nextRequestId : Nat
  isAudioLoading : Bool
  pendingTasks : List GlueTask
  playSegmentCalls : List Int
  stopCalls : Nat
  audioStartedEvents : Nat
  cancelledRequests : List Nat
deriving DecidableEq, Repr

/-- Glue state at startup. -/
def initGlue : GlueState :=
  { currentAudioRequestId := none
    nextRequestId := 0
    isAudioLoading := false
    pendingTasks := []
    playSegmentCalls := []
    stopCalls := 0
    audioStartedEvents := 0
    cancelledRequests := [] }

/-- The `LOAD_SCENE_AUDIO` effect handler: generate a fresh request id,
store it in `currentAudioRequestId` (superseding any earlier request),
and schedule the delayed `preDelay` continuation. -/
def handleLoadSceneAudioEffect (g : GlueState) (sceneIndex : Int) : GlueState :=
  let requestId := g.nextRequestId
  { g with
    nextRequestId := g.nextRequestId + 1
    currentAudioRequestId := some requestId
    pendingTasks := g.pendingTasks ++ [GlueTask.preDelay requestId sceneIndex] }

/-- The `STOP_AUDIO` effect handler: unconditionally call
`audioPlayer.stop()` (no token gating). -/
def handleStopAudioEffect (g : GlueState) : GlueState :=
  { g with stopCalls := g.stopCalls + 1 }

/-- The `preDelay` slice: the `setTimeout` callback's token check, then
`loadSceneAudio`'s entry check, then the check just before starting the
load.  All three compare the captured token against
`currentAudioRequestId`, and no suspension point separates them.  On
success the request suspends in `await loadAudioFromZip`, modelled by
scheduling the `afterLoad` continuation; on mismatch the request aborts
silently, calling neither `stop` nor `playSegment`. -/
def runPreDelay (g : GlueState) (requestId : Nat) (sceneIndex : Int) :
    GlueState :=
  if g.currentAudioRequestId = some requestId then
    -- loadSceneAudio entry check
    if g.currentAudioRequestId = some requestId then
      let g := { g with isAudioLoading := true }
      -- check just before starting the audio load
      if g.currentAudioRequestId = some requestId then
        { g with pendingTasks := g.pendingTasks ++ [GlueTask.afterLoad requestId sceneIndex] }
      else
        { g with cancelledRequests := g.cancelledRequests ++ [requestId] }
    else
      { g with cancelledRequests := g.cancelledRequests ++ [requestId] }
  else
    { g with cancelledRequests := g.cancelledRequests ++ [requestId] }

/-- The `afterLoad` slice: the token check after loading but before
playing; on success the audio reaches `audioPlayer.playSegment`, then
`AUDIO_STARTED` is dispatched and the loading flag cleared (no further
token check after playing). -/
def runAfterLoad (g : GlueState) (requestId : Nat) (sceneIndex : Int) :
    GlueState :=
  if g.currentAudioRequestId = some requestId then
    { g with
      playSegmentCalls := g.playSegmentCalls ++ [sceneIndex]
      audioStartedEvents := g.audioStartedEvents + 1
      isAudioLoading := false }
  else
    { g with cancelledRequests := g.cancelledRequests ++ [requestId] }

/-- Pop and run the first pending task. -/
def stepGlue (g : GlueState) : GlueState :=
  match g.pendingTasks with
  | [] => g
  | task :: rest =>
    let g' := { g with pendingTasks := rest }
    match task with
    | .preDelay requestId sceneIndex => runPreDelay g' requestId sceneIndex
    | .afterLoad requestId sceneIndex => runAfterLoad g' requestId sceneIndex

/-- Run up to `fuel` pending tasks in FIFO order. -/
def stepGlueN : Nat → GlueState → GlueState
  | 0, g => g
  | fuel + 1, g => stepGlueN fuel (stepGlue g)

/-- The staleness scenario: two `LOAD_SCENE_AUDIO` effects handled in
succession — the second before the first request's pre-load delay
elapses — after which the event loop drains the scheduled continuations
in order. -/
def staleRun (scene1 scene2 : Int) : GlueState :=
  let g := handleLoadSceneAudioEffect initGlue scene1
  let g := handleLoadSceneAudioEffect g scene2
  stepGlueN 4 g

/-!
Auxiliary predicates and concrete data used by the statements below.
-/

/-- The invariant of the spec's data-model section, weakened exactly as
`PROJECT_LOADED{totalScenes = 0}` forces: once a project is loaded the
scene index is at least 1, and it is bounded by `totalScenes` whenever at
least one scene exists. -/
def sceneInvariant (s : AppState) : Prop :=
  s.projectLoaded = true →
    1 ≤ s.currentSceneIndex ∧
      (1 ≤ s.totalScenes → s.currentSceneIndex ≤ s.totalScenes)

/-- Whether the source handle at index `i` is sounding. -/
def soundingAt (p : AudioPlayer) (i : Nat) : Bool :=
  (p.sources.getD i default).sounding

/-- Every sounding source handle is the one held in the player's
`currentSource` field — the inductive form of the single-source
invariant. -/
def PlayerInv (p : AudioPlayer) : Prop :=
  ∀ i : Nat, soundingAt p i = true → p.currentSource = some i

/-- The source node currently held by the player, if any. -/
def currentSourceNode (p : AudioPlayer) : Source :=
  match p.currentSource with
  | some i => p.sources.getD i default
  | none => default

/-- A concrete stereo-free test buffer: 8 frames at 2 frames per second,
so 4 seconds long. -/
def demoBuffer : AudioBuffer :=
  { sampleRate := 2, length := 8, channels := [[1, 2, 3, 4, 5, 6, 7, 8]] }

/-- A concrete 2-second test buffer at 1 frame per second. -/
def shortBuffer : AudioBuffer :=
  { sampleRate := 1, length := 2, channels := [[3, 4]] }

/-!
Theorems.  First a few list lemmas used by the audio-player proofs, then
the event-system results, then the audio-player and glue results.
-/

theorem getD_set_self {α : Type} (l : List α) (i : Nat) (a d : α)
    (h : i < l.length) : (l.set i a).getD i d = a := by
  induction l generalizing i with
  | nil => simp at h
  | cons x xs ih =>
    cases i with
    | zero => rfl
    | succ j => exact ih j (by simpa using h)

theorem getD_set_ne {α : Type} (l : List α) (i j : Nat) (a d : α)
    (h : i ≠ j) : (l.set i a).getD j d = l.getD j d := by
  induction l generalizing i j with
  | nil => rfl
  | cons x xs ih =>
    cases i with
    | zero =>
      cases j with
      | zero => exact absurd rfl h
      | succ j' => rfl
    | succ i' =>
      cases j with
      | zero => rfl
      | succ j' => exact ih i' j' (fun hh => h (by rw [hh]))

theorem getD_oob {α : Type} (l : List α) (i : Nat) (d : α)
    (h : l.length ≤ i) : l.getD i d = d := by
  induction l generalizing i with
  | nil => cases i <;> rfl
  | cons x xs ih =>
    cases i with
    | zero => simp at h
    | succ j => exact ih j (by simpa using h)

theorem length_set_eq {α : Type} (l : List α) (i : Nat) (a : α) :
    (l.set i a).length = l.length := by
  simp

theorem getD_append_lt {α : Type} (l m : List α) (i : Nat) (d : α)
    (h : i < l.length) : (l ++ m).getD i d = l.getD i d := by
  induction l generalizing i with
  | nil => simp at h
  | cons x xs ih =>
    cases i with
    | zero => rfl
    | succ j => exact ih j (by simpa using h)

theorem getD_append_self {α : Type} (l : List α) (a d : α) :
    (l ++ [a]).getD l.length d = a := by
  induction l with
  | nil => rfl
  | cons x xs ih => exact ih

theorem getD_append_oob {α : Type} (l : List α) (a d : α) (i : Nat)
    (h : l.length < i) : (l ++ [a]).getD i d = d := by
  apply getD_oob
  simpa using h

theorem getD_map_lt {α β : Type} (l : List α) (f : α → β) (i : Nat)
    (d : α) (d' : β) (h : i < l.length) :
    (l.map f).getD i d' = f (l.getD i d) := by
  induction l generalizing i with
  | nil => simp at h
  | cons x xs ih =>
    cases i with
    | zero => rfl
    | succ j => exact ih j (by simpa using h)

theorem getD_range_map {β : Type} (n : Nat) (f : Nat → β) (i : Nat)
    (d : β) (h : i < n) : (((List.range n).map f).getD i d) = f i := by
  have : (List.range n).getD i 0 = i := by
    induction n with
    | zero => simp at h
    | succ m ih =>
      rcases Nat.lt_or_ge i m with hm | hm
      · rw [List.range_succ, getD_append_lt _ _ _ _ (by simpa using hm)]
        exact ih hm
      · have him : i = m := Nat.le_antisymm (Nat.lt_succ_iff.mp h) hm
        subst him
        rw [List.range_succ]
        have hlen : (List.range i).length = i := List.length_range i
        calc (List.range i ++ [i]).getD i 0
            = (List.range i ++ [i]).getD (List.range i).length 0 := by rw [hlen]
          _ = i := getD_append_self (List.range i) i 0
  rw [getD_map_lt _ _ _ 0 _ (by simp [h]), this]

theorem sceneInvariant_reduceVal (s : AppState) (e : AppEvent)
    (h : sceneInvariant s) : sceneInvariant (reduceVal s e) := by
  unfold sceneInvariant at h ⊢
  cases e with
  | projectLoaded n =>
      intro _
      exact ⟨le_refl 1, fun hn => hn⟩
  | sceneNavigate d =>
      simp only [reduceVal, reduce]
      split_ifs with hc
      · intro _
        exact ⟨hc.1, fun _ => hc.2⟩
      · exact h
  | sceneSet idx =>
      simp only [reduceVal, reduce]
      split_ifs with hc
      · intro _
        exact ⟨hc.1, fun _ => hc.2⟩
      · exact h
  | modeToggle => exact h
  | playPause => exact h
  | audioStarted => exact h
  | audioStopped => exact h
  | autoAdvance =>
      simp only [reduceVal, reduce]
      by_cases ha : s.isAutoMode
      · simp only [ha, Bool.not_true, Bool.false_eq_true, if_false, Option.getD_some]
        intro hp
        rcases h hp with ⟨h1, h2⟩
        split_ifs with hn
        · exact ⟨by omega, fun _ => hn⟩
        · exact ⟨le_refl 1, fun ht => ht⟩
      · simp only [ha, Bool.not_false, if_true, Option.getD_none]
        exact h

theorem sceneInvariant_runEvents (s : AppState) (es : List AppEvent)
    (h : sceneInvariant s) : sceneInvariant (runEvents s es) := by
  induction es generalizing s with
  | nil => exact h
  | cons e es ih => exact ih (reduceVal s e) (sceneInvariant_reduceVal s e h)

/-- C3 counterexample: dispatching `PROJECT_LOADED{totalScenes = 0}` —
admitted by the spec, which allows any `totalScenes ≥ 0` — reaches a
state with `projectLoaded = true`, `currentSceneIndex = 1` and
`totalScenes = 0`, so `1 ≤ currentSceneIndex ≤ totalScenes` fails. -/
theorem project_loaded_zero_breaks_bound :
    (runEvents initialState [AppEvent.projectLoaded 0]).projectLoaded = true ∧
    ¬ (1 ≤ (runEvents initialState [AppEvent.projectLoaded 0]).currentSceneIndex ∧
        (runEvents initialState [AppEvent.projectLoaded 0]).currentSceneIndex ≤
          (runEvents initialState [AppEvent.projectLoaded 0]).totalScenes) := by
  decide

/-- C3 (amended): in every state reachable from the initial state by
dispatching any sequence of events through the reducer, if
`projectLoaded` is true then `1 ≤ currentSceneIndex`, and
`currentSceneIndex ≤ totalScenes` holds whenever `totalScenes ≥ 1`; the
upper bound cannot hold for `totalScenes = 0`, where `PROJECT_LOADED`
still sets `currentSceneIndex = 1`. -/
theorem reachable_scene_index_bound (es : List AppEvent)
    (h : (runEvents initialState es).projectLoaded = true) :
    1 ≤ (runEvents initialState es).currentSceneIndex ∧
      (1 ≤ (runEvents initialState es).totalScenes →
        (runEvents initialState es).currentSceneIndex ≤
          (runEvents initialState es).totalScenes) :=
  sceneInvariant_runEvents initialState es
    (by intro hp; simp [initialState] at hp) h

/-- Witness for C3 (amended) at the event list `[PROJECT_LOADED{3}]`. -/
theorem reachable_scene_index_bound_witness :
    1 ≤ (runEvents initialState [AppEvent.projectLoaded 3]).currentSceneIndex ∧
      (1 ≤ (runEvents initialState [AppEvent.projectLoaded 3]).totalScenes →
        (runEvents initialState [AppEvent.projectLoaded 3]).currentSceneIndex ≤
          (runEvents initialState [AppEvent.projectLoaded 3]).totalScenes) :=
  reachable_scene_index_bound [AppEvent.projectLoaded 3] (by decide)

/-- C4: at `currentSceneIndex = 1`, `SCENE_NAVIGATE{-1}` takes the
reducer's clamped branch, which returns the very same state object
(`reduce` yields `none`) and hence an unchanged value; and with
`isAutoMode = true` and `currentSceneIndex = totalScenes`,
`AUTO_ADVANCE` wraps the scene index around to 1. -/
theorem navigate_clamps_and_auto_advance_wraps (s : AppState) :
    (s.currentSceneIndex = 1 →
      reduce s (AppEvent.sceneNavigate (-1)) = none ∧
      reduceVal s (AppEvent.sceneNavigate (-1)) = s) ∧
    (s.isAutoMode = true → s.currentSceneIndex = s.totalScenes →
      (reduceVal s AppEvent.autoAdvance).currentSceneIndex = 1) := by
  constructor
  · intro h1
    have hc : ¬ (s.currentSceneIndex + (-1) ≥ 1 ∧
        s.currentSceneIndex + (-1) ≤ s.totalScenes) := by omega
    constructor
    · simp only [reduce, hc, if_false]
    · simp only [reduceVal, reduce, hc, if_false, Option.getD_none]
  · intro ha hi
    have hn : ¬ (s.currentSceneIndex + 1 ≤ s.totalScenes) := by omega
    simp only [reduceVal, reduce, ha, Bool.not_true, Bool.false_eq_true,
      if_false, hn, Option.getD_some]

/-- Witness for C4 at the state
`{currentSceneIndex := 1, isAutoMode := true, isPlaying := false,
totalScenes := 1, projectLoaded := true}`. -/
theorem navigate_clamps_and_auto_advance_wraps_witness :
    (reduce ⟨1, true, false, 1, true⟩ (AppEvent.sceneNavigate (-1)) = none ∧
      reduceVal ⟨1, true, false, 1, true⟩ (AppEvent.sceneNavigate (-1)) =
        ⟨1, true, false, 1, true⟩) ∧
    (reduceVal ⟨1, true, false, 1, true⟩ AppEvent.autoAdvance).currentSceneIndex = 1 :=
  ⟨(navigate_clamps_and_auto_advance_wraps ⟨1, true, false, 1, true⟩).1 rfl,
   (navigate_clamps_and_auto_advance_wraps ⟨1, true, false, 1, true⟩).2 rfl rfl⟩

/-- C5: from a loaded state, dispatching `SCENE_SET` at an in-range index
different from the current one produces exactly the effect list
`[UPDATE_UI, STOP_AUDIO, LOAD_SCENE_AUDIO{newIndex}]`, in that order. -/
theorem scene_set_effect_order (s : AppState) (newIndex : Int)
    (_hl : s.projectLoaded = true) (h1 : 1 ≤ newIndex)
    (h2 : newIndex ≤ s.totalScenes) (hne : newIndex ≠ s.currentSceneIndex) :
    (dispatch s (AppEvent.sceneSet newIndex)).2 =
      [AppEffect.updateUI, AppEffect.stopAudioFx,
        AppEffect.loadSceneAudioFx newIndex] := by
  have hc : newIndex ≥ 1 ∧ newIndex ≤ s.totalScenes := ⟨h1, h2⟩
  have hne' : s.currentSceneIndex ≠ newIndex := fun hh => hne hh.symm
  simp [dispatch, reduce, getEffects, hc, hne']

/-- Witness for C5 at `{currentSceneIndex := 1, isAutoMode := false,
isPlaying := false, totalScenes := 3, projectLoaded := true}` and
`newIndex = 2`. -/
theorem scene_set_effect_order_witness :
    (dispatch ⟨1, false, false, 3, true⟩ (AppEvent.sceneSet 2)).2 =
      [AppEffect.updateUI, AppEffect.stopAudioFx,
        AppEffect.loadSceneAudioFx 2] :=
  scene_set_effect_order ⟨1, false, false, 3, true⟩ 2 rfl (by decide)
    (by decide) (by decide)

/-- C10: `MODE_TOGGLE`, `PLAY_PAUSE`, `AUDIO_STARTED` and `AUDIO_STOPPED`
always make the reducer allocate a fresh state object (`reduce` yields
`some _` for every input state), so the identity-based dirtiness check
fires and `UPDATE_UI` is always emitted — even when no field value
changes, e.g. `AUDIO_STARTED` with `isPlaying` already true. -/
theorem always_fresh_events_emit_update_ui (s : AppState) :
    ((reduce s AppEvent.modeToggle).isSome = true ∧
      AppEffect.updateUI ∈ (dispatch s AppEvent.modeToggle).2) ∧
    ((reduce s AppEvent.playPause).isSome = true ∧
      AppEffect.updateUI ∈ (dispatch s AppEvent.playPause).2) ∧
    ((reduce s AppEvent.audioStarted).isSome = true ∧
      AppEffect.updateUI ∈ (dispatch s AppEvent.audioStarted).2) ∧
    ((reduce s AppEvent.audioStopped).isSome = true ∧
      AppEffect.updateUI ∈ (dispatch s AppEvent.audioStopped).2) := by
  refine ⟨⟨rfl, ?_⟩, ⟨rfl, ?_⟩, ⟨rfl, ?_⟩, ⟨rfl, ?_⟩⟩ <;>
    simp [dispatch, reduce, getEffects]

theorem sounding_stopSource (s : Source) : (stopSource s).sounding = false := by
  simp [stopSource, Source.sounding]

theorem stop_noSounding (p : AudioPlayer) (h : PlayerInv p) (i : Nat) :
    soundingAt p.stop i = false := by
  unfold soundingAt
  rcases hc : p.currentSource with _ | k
  · have hs : p.stop.sources = p.sources := by simp [AudioPlayer.stop, hc]
    rw [hs]
    cases hb : (p.sources.getD i default).sounding
    · rfl
    · have h2 := h i hb
      rw [hc] at h2
      exact Option.noConfusion h2
  · have hs : p.stop.sources =
        p.sources.set k (stopSource (p.sources.getD k default)) := by
      simp [AudioPlayer.stop, hc]
    rw [hs]
    by_cases hik : i = k
    · subst hik
      by_cases hlen : i < p.sources.length
      · rw [getD_set_self _ _ _ _ hlen, sounding_stopSource]
      · rw [getD_oob _ _ _ (by simpa using Nat.le_of_not_lt hlen)]
        rfl
    · rw [getD_set_ne _ _ _ _ _ (fun hh => hik hh.symm)]
      cases hb : (p.sources.getD i default).sounding
      · rfl
      · have h2 := h i hb
        rw [hc] at h2
        exact absurd (Option.some.inj h2).symm hik

theorem PlayerInv_stop (p : AudioPlayer) (h : PlayerInv p) :
    PlayerInv p.stop := by
  intro i hs
  rw [stop_noSounding p h i] at hs
  exact Bool.noConfusion hs

theorem PlayerInv_startNew (l : List Source) (src : Source)
    (hl : ∀ i, (l.getD i default).sounding = false)
    (p' : AudioPlayer) (hs : p'.sources = l ++ [src])
    (hc : p'.currentSource = some l.length) : PlayerInv p' := by
  intro i hsound
  unfold soundingAt at hsound
  rw [hs] at hsound
  rcases Nat.lt_trichotomy i l.length with hlt | heq | hgt
  · rw [getD_append_lt _ _ _ _ hlt, hl i] at hsound
    exact Bool.noConfusion hsound
  · rw [hc, heq]
  · rw [getD_append_oob _ _ _ _ hgt] at hsound
    exact Bool.noConfusion hsound

theorem PlayerInv_playSegment (p : AudioPlayer) (h : PlayerInv p)
    (b : Option AudioBuffer) (st et : Option Rat) :
    PlayerInv (p.playSegment b st et) := by
  rcases b with _ | buf
  · exact h
  · have hstop := stop_noSounding p h
    dsimp only [AudioPlayer.playSegment]
    split_ifs with hv hle
    · exact PlayerInv_startNew p.stop.sources _ (fun i => hstop i) _ rfl rfl
    · exact PlayerInv_startNew p.stop.sources _ (fun i => hstop i) _ rfl rfl
    · exact PlayerInv_startNew p.stop.sources _ (fun i => hstop i) _ rfl rfl

theorem PlayerInv_naturalEnd (p : AudioPlayer) (h : PlayerInv p) (k : Nat) :
    PlayerInv (p.naturalEnd k) := by
  unfold AudioPlayer.naturalEnd
  dsimp only
  split_ifs with hcnd
  · intro i hsound
    unfold soundingAt at hsound
    by_cases hik : i = k
    · subst hik
      rw [getD_set_self _ _ _ _ hcnd.1] at hsound
      simp [Source.sounding] at hsound
    · rw [getD_set_ne _ _ _ _ _ (fun hh => hik hh.symm)] at hsound
      exact h i hsound
  · exact h

theorem PlayerInv_deliverEnded (p : AudioPlayer) (h : PlayerInv p) (k : Nat) :
    PlayerInv (p.deliverEnded k) := by
  unfold AudioPlayer.deliverEnded
  dsimp only
  split_ifs with hcnd hlis
  · intro i hsound
    unfold soundingAt at hsound
    by_cases hik : i = k
    · subst hik
      rw [getD_set_self _ _ _ _ hcnd.1] at hsound
      exact h i hsound
    · rw [getD_set_ne _ _ _ _ _ (fun hh => hik hh.symm)] at hsound
      exact h i hsound
  · intro i hsound
    unfold soundingAt at hsound
    by_cases hik : i = k
    · subst hik
      rw [getD_set_self _ _ _ _ hcnd.1] at hsound
      exact h i hsound
    · rw [getD_set_ne _ _ _ _ _ (fun hh => hik hh.symm)] at hsound
      exact h i hsound
  · exact h

theorem PlayerInv_applyOp (p : AudioPlayer) (h : PlayerInv p)
    (op : PlayerOp) : PlayerInv (applyOp p op) := by
  cases op with
  | play b st et => exact PlayerInv_playSegment p h b st et
  | stopOp => exact PlayerInv_stop p h
  | setMode m cb => exact h
  | natEnd i => exact PlayerInv_naturalEnd p h i
  | ended i => exact PlayerInv_deliverEnded p h i

theorem PlayerInv_init : PlayerInv initPlayer := by
  intro i hs
  unfold soundingAt initPlayer at hs
  rw [getD_oob _ _ _ (Nat.zero_le i)] at hs
  exact Bool.noConfusion hs

theorem PlayerInv_runOps (ops : List PlayerOp) :
    PlayerInv (runOps initPlayer ops) := by
  suffices hgen : ∀ (os : List PlayerOp) (p : AudioPlayer),
      PlayerInv p → PlayerInv (runOps p os) from
    hgen ops initPlayer PlayerInv_init
  intro os
  induction os with
  | nil => exact fun p h => h
  | cons op os ih => exact fun p h => ih (applyOp p op) (PlayerInv_applyOp p h op)

theorem rat_floor_eq_int_floor (q : ℚ) : q.floor = ⌊q⌋ := by
  rw [Rat.floor_def', Rat.floor_def]

theorem resolveStartTime_some (t : ℚ) : resolveStartTime (some t) = t := by
  unfold resolveStartTime
  dsimp only
  split_ifs with h
  · exact h.symm
  · rfl

theorem resolveEndTime_some (buf : AudioBuffer) (t : ℚ) (ht : t ≠ 0) :
    resolveEndTime buf (some t) = t := by
  unfold resolveEndTime
  dsimp only
  rw [if_neg ht]

theorem resolveEndTime_zero (buf : AudioBuffer) :
    resolveEndTime buf (some 0) = buf.duration := by
  unfold resolveEndTime
  dsimp only
  rw [if_pos rfl]

theorem not_invalidWindow_of (buf : AudioBuffer) (s e : ℚ) (h0 : 0 ≤ s)
    (hse : s < e) (hed : e ≤ buf.duration) : ¬ invalidWindow buf s e := by
  unfold invalidWindow
  push_neg
  exact ⟨hse, h0, by linarith, by linarith⟩

theorem playSegment_valid_eq (p : AudioPlayer) (buf : AudioBuffer) (s e : ℚ)
    (h0 : 0 ≤ s) (hse : s < e) (hed : e ≤ buf.duration) :
    p.playSegment (some buf) (some s) (some e) =
      AudioPlayer.playSegmentWithMode { p.stop with stopRequested := false }
        buf s e := by
  dsimp only [AudioPlayer.playSegment]
  rw [resolveStartTime_some,
    resolveEndTime_some buf e (ne_of_gt (lt_of_le_of_lt h0 hse)),
    if_neg (not_invalidWindow_of buf s e h0 hse hed), if_pos hed]

theorem playSegment_none_none_eq (p : AudioPlayer) (buf : AudioBuffer)
    (hd : 0 < buf.duration) :
    p.playSegment (some buf) none none =
      AudioPlayer.playSegmentWithMode { p.stop with stopRequested := false }
        buf 0 buf.duration := by
  dsimp only [AudioPlayer.playSegment, resolveStartTime, resolveEndTime]
  rw [if_neg (not_invalidWindow_of buf 0 buf.duration le_rfl hd le_rfl),
    if_pos le_rfl]

theorem playSegment_invalid_eq (p : AudioPlayer) (buf : AudioBuffer)
    (st et : Option ℚ)
    (h : invalidWindow buf (resolveStartTime st) (resolveEndTime buf et)) :
    p.playSegment (some buf) st et =
      AudioPlayer.playSimpleLoop { p.stop with stopRequested := false } buf := by
  dsimp only [AudioPlayer.playSegment]
  rw [if_pos h]

theorem currentSourceNode_playSimpleLoop (p : AudioPlayer)
    (buf : AudioBuffer) :
    currentSourceNode (p.playSimpleLoop buf) =
      { buffer := buf, loop := true, started := true, stopped := false
        connected := true, hasEndedListener := false, endedPending := false
        endedDelivered := false } := by
  unfold currentSourceNode AudioPlayer.playSimpleLoop
  dsimp only
  exact getD_append_self _ _ _

theorem currentSourceNode_playSegmentWithMode_buffer (p : AudioPlayer)
    (buf : AudioBuffer) (s e : ℚ) :
    (currentSourceNode (p.playSegmentWithMode buf s e)).buffer =
      makeSegmentBuffer buf s e := by
  unfold currentSourceNode AudioPlayer.playSegmentWithMode
  dsimp only
  rw [getD_append_self]

theorem makeSegmentBuffer_channel_length (buf : AudioBuffer) (s e : ℚ)
    (c : Nat) (hc : c < buf.channels.length) :
    ((makeSegmentBuffer buf s e).channels.getD c []).length =
      jsFloorNat ((e - s) * buf.sampleRate) := by
  unfold makeSegmentBuffer
  dsimp only
  rw [getD_map_lt _ _ _ [] _ hc]
  unfold segmentChannelData
  simp

theorem makeSegmentBuffer_sample (buf : AudioBuffer) (s e : ℚ) (c i : Nat)
    (hc : c < buf.channels.length)
    (hi : i < jsFloorNat ((e - s) * buf.sampleRate)) :
    ((makeSegmentBuffer buf s e).channels.getD c []).getD i 0 =
      (if jsFloorNat (s * buf.sampleRate) + i < (buf.channels.getD c []).length
       then (buf.channels.getD c []).getD (jsFloorNat (s * buf.sampleRate) + i) 0
       else 0) := by
  unfold makeSegmentBuffer
  dsimp only
  rw [getD_map_lt _ _ _ [] _ hc]
  unfold segmentChannelData
  rw [getD_range_map _ _ _ _ hi]

/-- C1: across every sequence of `playSegment`/`stop` calls (and the
platform steps that end or signal sources), at most one sounding source
handle exists at any sampled instant — any sounding handle is the one
held in `currentSource`, so two sounding handles coincide, and any
handle no longer referenced by `currentSource` has been stopped; and
`stop` is idempotent and total, so a second consecutive `stop` leaves
the engine state unchanged and does not throw. -/
theorem single_sounding_source :
    (∀ (ops : List PlayerOp) (i j : Nat),
        soundingAt (runOps initPlayer ops) i = true →
        soundingAt (runOps initPlayer ops) j = true → i = j) ∧
    (∀ (ops : List PlayerOp) (i : Nat),
        (runOps initPlayer ops).currentSource ≠ some i →
        soundingAt (runOps initPlayer ops) i = false) ∧
    (∀ p : AudioPlayer, p.stop.stop = p.stop) := by
  refine ⟨?_, ?_, ?_⟩
  · intro ops i j hi hj
    have h := PlayerInv_runOps ops
    exact Option.some.inj ((h i hi).symm.trans (h j hj))
  · intro ops i hne
    cases hb : soundingAt (runOps initPlayer ops) i
    · rfl
    · exact absurd (PlayerInv_runOps ops i hb) hne
  · intro p
    rfl

/-- Witness for C1: after one `playSegment`, source 0 is the unique
sounding source; after a lone `stop`, nothing sounds; and a double
`stop` on a fresh player equals a single one. -/
theorem single_sounding_source_witness :
    (0 : Nat) = 0 ∧
    soundingAt (runOps initPlayer [PlayerOp.stopOp]) 0 = false ∧
    initPlayer.stop.stop = initPlayer.stop := by
  have hplay : soundingAt
      (runOps initPlayer [PlayerOp.play (some demoBuffer) none none]) 0 = true := by
    show soundingAt (initPlayer.playSegment (some demoBuffer) none none) 0 = true
    rw [playSegment_none_none_eq initPlayer demoBuffer
      (by norm_num [AudioBuffer.duration, demoBuffer])]
    simp [soundingAt, AudioPlayer.playSegmentWithMode, AudioPlayer.stop,
      initPlayer, Source.sounding]
  refine ⟨single_sounding_source.1
      [PlayerOp.play (some demoBuffer) none none] 0 0 hplay hplay,
    single_sounding_source.2.1 [PlayerOp.stopOp] 0 ?_,
    single_sounding_source.2.2 initPlayer⟩
  show (initPlayer.stop).currentSource ≠ some 0
  simp [AudioPlayer.stop]

/-- C2: in the staleness scenario — a `LOAD_SCENE_AUDIO` effect for one
scene followed, before the first request's pre-load delay elapses, by a
`LOAD_SCENE_AUDIO` effect for another — only the newest request's scene
ever reaches `playSegment`; the superseded request (id 0) observes at its
first staleness checkpoint that its token no longer equals the
most-recently-issued one and aborts silently, calling neither `stop` nor
`playSegment`, and the task queue drains completely. -/
theorem stale_request_never_reaches_play_segment (scene1 scene2 : Int) :
    (staleRun scene1 scene2).playSegmentCalls = [scene2] ∧
    (staleRun scene1 scene2).stopCalls = 0 ∧
    (staleRun scene1 scene2).cancelledRequests = [0] ∧
    (staleRun scene1 scene2).pendingTasks = [] :=
  ⟨rfl, rfl, rfl, rfl⟩

/-- C6: whenever the resolved playback window is invalid — `start ≥ end`,
`start < 0`, `end > duration + 0.1`, or `start ≥ duration` — `playSegment`
takes the graceful-degradation path: it creates a source over the entire
original buffer with looping enabled, starts it at offset 0, and leaves
the player playing; the operation is total, so it never throws. -/
theorem invalid_window_plays_full_buffer_looped (p : AudioPlayer)
    (buf : AudioBuffer) (st et : Option ℚ)
    (h : invalidWindow buf (resolveStartTime st) (resolveEndTime buf et)) :
    (currentSourceNode (p.playSegment (some buf) st et)).buffer = buf ∧
    (currentSourceNode (p.playSegment (some buf) st et)).loop = true ∧
    (currentSourceNode (p.playSegment (some buf) st et)).sounding = true ∧
    (p.playSegment (some buf) st et).isPlaying = true ∧
    (p.playSegment (some buf) st et).stopRequested = false := by
  rw [playSegment_invalid_eq p buf st et h, currentSourceNode_playSimpleLoop]
  exact ⟨rfl, rfl, rfl, rfl, rfl⟩

/-- Witness for C6: the spec's own fallback scenario,
`playSegment(buffer, start = 5, end = 1)` on a 4-second buffer. -/
theorem invalid_window_plays_full_buffer_looped_witness :
    (currentSourceNode (initPlayer.playSegment (some demoBuffer) (some 5)
        (some 1))).buffer = demoBuffer ∧
    (currentSourceNode (initPlayer.playSegment (some demoBuffer) (some 5)
        (some 1))).loop = true ∧
    (currentSourceNode (initPlayer.playSegment (some demoBuffer) (some 5)
        (some 1))).sounding = true ∧
    (initPlayer.playSegment (some demoBuffer) (some 5) (some 1)).isPlaying = true ∧
    (initPlayer.playSegment (some demoBuffer) (some 5) (some 1)).stopRequested
      = false :=
  invalid_window_plays_full_buffer_looped initPlayer demoBuffer (some 5) (some 1)
    (by
      rw [resolveStartTime_some, resolveEndTime_some demoBuffer 1 (by norm_num)]
      unfold invalidWindow
      exact Or.inl (by norm_num))

/-- C7: for a valid window `0 ≤ s < e ≤ duration`, `playSegment`
materializes exactly the sample-accurate slice: the buffer handed to the
new source is `makeSegmentBuffer buf s e`; each channel of that slice has
exactly `floor((e − s) · sampleRate)` samples; and sample `i` of a channel
equals the source channel's sample at index `floor(s · sampleRate) + i`
when that index is in range, and 0 otherwise. -/
theorem segment_slice_sample_accurate (p : AudioPlayer) (buf : AudioBuffer)
    (s e : ℚ) (h0 : 0 ≤ s) (hse : s < e) (hed : e ≤ buf.duration) :
    (currentSourceNode (p.playSegment (some buf) (some s) (some e))).buffer =
      makeSegmentBuffer buf s e ∧
    (makeSegmentBuffer buf s e).length = jsFloorNat ((e - s) * buf.sampleRate) ∧
    (∀ c : Nat, c < buf.numberOfChannels →
      ((makeSegmentBuffer buf s e).channels.getD c []).length =
        jsFloorNat ((e - s) * buf.sampleRate) ∧
      ∀ i : Nat, i < jsFloorNat ((e - s) * buf.sampleRate) →
        ((makeSegmentBuffer buf s e).channels.getD c []).getD i 0 =
          (if jsFloorNat (s * buf.sampleRate) + i < (buf.channels.getD c []).length
           then (buf.channels.getD c []).getD
                  (jsFloorNat (s * buf.sampleRate) + i) 0
           else 0)) := by
  refine ⟨?_, rfl, fun c hc => ⟨makeSegmentBuffer_channel_length buf s e c hc,
    fun i hi => makeSegmentBuffer_sample buf s e c i hc hi⟩⟩
  rw [playSegment_valid_eq p buf s e h0 hse hed,
    currentSourceNode_playSegmentWithMode_buffer]

/-- Witness for C7 at the window `[1, 2]` of the 4-second demo buffer
(sample rate 2): the slice starts at source sample `floor(1·2) = 2` and
has `floor(1·2) = 2` samples. -/
theorem segment_slice_sample_accurate_witness :
    (currentSourceNode (initPlayer.playSegment (some demoBuffer) (some 1)
        (some 2))).buffer = makeSegmentBuffer demoBuffer 1 2 ∧
    (makeSegmentBuffer demoBuffer 1 2).length =
      jsFloorNat ((2 - 1) * demoBuffer.sampleRate) ∧
    (∀ c : Nat, c < demoBuffer.numberOfChannels →
      ((makeSegmentBuffer demoBuffer 1 2).channels.getD c []).length =
        jsFloorNat ((2 - 1) * demoBuffer.sampleRate) ∧
      ∀ i : Nat, i < jsFloorNat ((2 - 1) * demoBuffer.sampleRate) →
        ((makeSegmentBuffer demoBuffer 1 2).channels.getD c []).getD i 0 =
          (if jsFloorNat (1 * demoBuffer.sampleRate) + i <
                (demoBuffer.channels.getD c []).length
           then (demoBuffer.channels.getD c []).getD
                  (jsFloorNat (1 * demoBuffer.sampleRate) + i) 0
           else 0)) :=
  segment_slice_sample_accurate initPlayer demoBuffer 1 2 (by norm_num)
    (by norm_num) (by norm_num [AudioBuffer.duration, demoBuffer])

/-- C8 counterexample: `playSegment(shortBuffer, 1, 0)` on the 2-second
buffer does *not* fall back to playing the entire buffer: the explicit
`endTime = 0` is a falsy JavaScript number, so `endTime || buffer.duration`
resolves it to `duration = 2`, the window `[1, 2]` is valid, and the
created source carries the 1-frame slice rather than the 2-frame full
buffer. -/
theorem explicit_zero_end_time_not_fallback :
    (currentSourceNode (initPlayer.playSegment (some shortBuffer) (some 1)
        (some 0))).buffer.length = 1 ∧
    shortBuffer.length = 2 := by
  have hd : shortBuffer.duration = 2 := by
    norm_num [AudioBuffer.duration, shortBuffer]
  have heq : initPlayer.playSegment (some shortBuffer) (some 1) (some 0) =
      AudioPlayer.playSegmentWithMode
        { initPlayer.stop with stopRequested := false } shortBuffer 1
        shortBuffer.duration := by
    dsimp only [AudioPlayer.playSegment]
    rw [resolveStartTime_some, resolveEndTime_zero,
      if_neg (not_invalidWindow_of shortBuffer 1 shortBuffer.duration
        (by norm_num) (by rw [hd]; norm_num) le_rfl),
      if_pos le_rfl]
  refine ⟨?_, rfl⟩
  rw [heq, currentSourceNode_playSegmentWithMode_buffer]
  show jsFloorNat ((shortBuffer.duration - 1) * shortBuffer.sampleRate) = 1
  rw [hd]
  norm_num [jsFloorNat, rat_floor_eq_int_floor, shortBuffer]

/-- C8 (amended): an explicitly supplied `endTime` of 0 is a falsy
JavaScript number, so `endTime || buffer.duration` treats it exactly like
an absent argument: for `0 < startTime < duration` the call
`playSegment(buffer, startTime, 0)` behaves identically to
`playSegment(buffer, startTime)` — the window becomes
`[startTime, duration]`, which is valid, and the segment
`[startTime, duration]` plays; no full-buffer fallback occurs. -/
theorem zero_end_time_treated_as_absent (p : AudioPlayer)
    (buf : AudioBuffer) (s : ℚ) (h0 : 0 < s) (hd : s < buf.duration) :
    p.playSegment (some buf) (some s) (some 0) =
      p.playSegment (some buf) (some s) none ∧
    (currentSourceNode (p.playSegment (some buf) (some s) (some 0))).buffer =
      makeSegmentBuffer buf s buf.duration := by
  have heq : p.playSegment (some buf) (some s) (some 0) =
      AudioPlayer.playSegmentWithMode { p.stop with stopRequested := false }
        buf s buf.duration := by
    dsimp only [AudioPlayer.playSegment]
    rw [resolveStartTime_some, resolveEndTime_zero,
      if_neg (not_invalidWindow_of buf s buf.duration (le_of_lt h0) hd le_rfl),
      if_pos le_rfl]
  have heq2 : p.playSegment (some buf) (some s) none =
      AudioPlayer.playSegmentWithMode { p.stop with stopRequested := false }
        buf s buf.duration := by
    dsimp only [AudioPlayer.playSegment, resolveEndTime]
    rw [resolveStartTime_some,
      if_neg (not_invalidWindow_of buf s buf.duration (le_of_lt h0) hd le_rfl),
      if_pos le_rfl]
  exact ⟨heq.trans heq2.symm,
    by rw [heq, currentSourceNode_playSegmentWithMode_buffer]⟩

/-- Witness for C8 (amended) at `playSegment(shortBuffer, 1, 0)`. -/
theorem zero_end_time_treated_as_absent_witness :
    initPlayer.playSegment (some shortBuffer) (some 1) (some 0) =
      initPlayer.playSegment (some shortBuffer) (some 1) none ∧
    (currentSourceNode (initPlayer.playSegment (some shortBuffer) (some 1)
        (some 0))).buffer = makeSegmentBuffer shortBuffer 1 shortBuffer.duration :=
  zero_end_time_treated_as_absent initPlayer shortBuffer 1 (by norm_num)
    (by norm_num [AudioBuffer.duration, shortBuffer])

/-- C9 counterexample: with `loopMode = 'once'` and a completion callback
registered, play a valid segment and then end playback with `stop()` —
the trace contains no natural-completion step at all.  The `ended` event
that the platform fires for the stopped source runs the attached listener,
which invokes the completion callback: `callbackCount = 1`, refuting
"the callback ... never [fires] when playback is ended by calling
stop()". -/
theorem completion_callback_fires_after_stop :
    (runOps initPlayer
      [PlayerOp.setMode LoopMode.once true,
       PlayerOp.play (some demoBuffer) none none,
       PlayerOp.stopOp,
       PlayerOp.ended 0]).callbackCount = 1 := by
  show ((((initPlayer.setLoopMode .once true).playSegment (some demoBuffer)
      none none).stop).deliverEnded 0).callbackCount = 1
  rw [playSegment_none_none_eq _ _ (by norm_num [AudioBuffer.duration, demoBuffer])]
  simp [AudioPlayer.setLoopMode, AudioPlayer.playSegmentWithMode,
    AudioPlayer.stop, AudioPlayer.deliverEnded, initPlayer, stopSource]

/-- C9 (amended): when a source carries the `ended` listener attached for
`loopMode = 'once'` with a registered callback, delivering its pending
`ended` event marks `isPlaying = false` in the same listener body that
invokes the callback (the assignment is sequenced immediately before the
invocation), increments the callback count by exactly one, and a second
delivery is a no-op — the callback fires exactly once per source.  The
event is delivered both after natural completion and after a manual
`stop()`, because the listener consults neither `stopRequested` nor the
cause of the stop. -/
theorem ended_listener_delivery (p : AudioPlayer) (i : Nat)
    (hlt : i < p.sources.length)
    (hpend : (p.sources.getD i default).endedPending = true)
    (hlis : (p.sources.getD i default).hasEndedListener = true) :
    (p.deliverEnded i).isPlaying = false ∧
    (p.deliverEnded i).callbackCount = p.callbackCount + 1 ∧
    (p.deliverEnded i).deliverEnded i = p.deliverEnded i := by
  have hred : p.deliverEnded i =
      { p with
        sources := p.sources.set i
          { p.sources.getD i default with
            endedPending := false, endedDelivered := true }
        isPlaying := false
        callbackCount := p.callbackCount + 1 } := by
    unfold AudioPlayer.deliverEnded
    dsimp only
    rw [if_pos ⟨hlt, hpend⟩, if_pos hlis]
  refine ⟨by rw [hred], by rw [hred], ?_⟩
  rw [hred]
  unfold AudioPlayer.deliverEnded
  dsimp only
  rw [if_neg]
  rintro ⟨-, hp2⟩
  rw [getD_set_self _ _ _ _ hlt] at hp2
  exact Bool.noConfusion hp2

/-- Witness for C9 (amended): deliver the `ended` event of the stopped
once-mode source. -/
theorem ended_listener_delivery_witness :
    ((runOps initPlayer [PlayerOp.setMode LoopMode.once true,
        PlayerOp.play (some demoBuffer) none none,
        PlayerOp.stopOp]).deliverEnded 0).isPlaying = false ∧
    ((runOps initPlayer [PlayerOp.setMode LoopMode.once true,
        PlayerOp.play (some demoBuffer) none none,
        PlayerOp.stopOp]).deliverEnded 0).callbackCount =
      (runOps initPlayer [PlayerOp.setMode LoopMode.once true,
        PlayerOp.play (some demoBuffer) none none,
        PlayerOp.stopOp]).callbackCount + 1 ∧
    (((runOps initPlayer [PlayerOp.setMode LoopMode.once true,
        PlayerOp.play (some demoBuffer) none none,
        PlayerOp.stopOp]).deliverEnded 0).deliverEnded 0) =
      (runOps initPlayer [PlayerOp.setMode LoopMode.once true,
        PlayerOp.play (some demoBuffer) none none,
        PlayerOp.stopOp]).deliverEnded 0 := by
  have hrw : runOps initPlayer [PlayerOp.setMode LoopMode.once true,
      PlayerOp.play (some demoBuffer) none none, PlayerOp.stopOp] =
      (((initPlayer.setLoopMode .once true).playSegment (some demoBuffer)
        none none).stop) := rfl
  refine ended_listener_delivery _ 0 ?_ ?_ ?_ <;>
    (rw [hrw, playSegment_none_none_eq _ _
        (by norm_num [AudioBuffer.duration, demoBuffer])]
     simp [AudioPlayer.setLoopMode, AudioPlayer.playSegmentWithMode,
       AudioPlayer.stop, initPlayer, stopSource])

end ShapeShift
